import Mathlib

/-!
Verification of the ROICaT tracking repository: the multi-modal similarity
fusion and clustering pipeline, and the visualization helpers.

The visualization helpers are embedded directly from
`roicat/visualization.py`.  The pipeline core (similarity building, session
masking, fusion, graph pruning, automatic-mixing clustering and the
orchestrator) is not part of the source excerpt; those definitions are
modelled from the specification, as recorded in each doc comment.
-/

namespace ROICaT

/-- Modelled from the spec: global ROI indexing.  Sessions are concatenated
in input order; given the per-session ROI counts, `sessionOfROI n_roi i` is
the index of the session owning global ROI index `i`.  (The real
session-assignment code lives outside the excerpt.) -/
def sessionOfROI : List Nat → Nat → Nat
  | [], _ => 0
  | n :: ns, i => if i < n then 0 else sessionOfROI ns (i - n) + 1

/-- Modelled from the spec: the SessionConstraintMasker output `s_sesh`, a
boolean matrix over the global ROI index where entry `(i, j)` is true iff
ROI `i` and ROI `j` are eligible to be compared; by default, iff they come
from different sessions. -/
def s_sesh (n_roi : List Nat) (i j : Nat) : Bool :=
  decide (sessionOfROI n_roi i ≠ sessionOfROI n_roi j)

/-- A sparse similarity (or distance) matrix over the global ROI index.
A zero entry means "no computed, explicit relation". -/
abbrev SimMat : Type := Nat → Nat → ℚ

/-- Membership in the nonzero support of a sparse matrix. -/
def inSupport (m : SimMat) (i j : Nat) : Prop := m i j ≠ 0

/-- Modelled from the spec: intersecting a similarity matrix with a boolean
mask; any value outside the mask is treated as absent, not zero. -/
def maskMat (mask : Nat → Nat → Bool) (m : SimMat) : SimMat :=
  fun i j => if mask i j then m i j else 0

/-- Modelled from the spec: the GraphPruner filters every similarity and
distance matrix to one retained edge set `keep` (threshold, k-nearest
neighbour cap or percentile policy), consistently indexed. -/
def pruneMat (keep : Nat → Nat → Bool) (m : SimMat) : SimMat :=
  fun i j => if keep i j then m i j else 0

/-- Modelled from the spec: the SimilarityFuser combines the (already
masked) per-modality matrices by a weighted sum restricted to the
intersection of their nonzero supports, producing `sConj`. -/
def fuse (modalities : List (ℚ × SimMat)) : SimMat :=
  fun i j =>
    if modalities.all (fun wm => decide (wm.2 i j ≠ 0)) then
      (modalities.map (fun wm => wm.1 * wm.2 i j)).sum
    else 0

/-- Modelled from the spec: the distance dual of the conjunctive similarity
matrix, `dConj = 1 - sConj` on explicit entries. -/
def dConjOf (sConj : SimMat) : SimMat :=
  fun i j => if decide (sConj i j ≠ 0) then 1 - sConj i j else 0

/-- Modelled from the spec: one clustering trial outcome of the
AutoMixingClusterer: an integer cluster id per global ROI (`-1` meaning
unclustered) and the value of the cluster-quality objective. -/
structure TrialOutcome where
  labels : List Int
  score : Int

/-- Modelled from the spec: a labeling is valid when some ROI is assigned
to a real cluster; a trial in which all clusters come out empty (every
label `-1`) is invalid. -/
def validLabeling (labels : List Int) : Bool :=
  labels.any (fun l => decide (0 ≤ l))

/-- State of the AutoMixingClusterer search loop: number of trials run so
far, number of consecutive non-improving trials, and the best valid trial
outcome found so far. -/
structure SearchState where
  nTrials : Nat
  nNoImprove : Nat
  best : Option TrialOutcome

/-- Terminal states of the AutoMixingClusterer search loop. -/
inductive Terminal where
  | CONVERGED
  | EXHAUSTED
deriving DecidableEq

/-- The initial search state. -/
def initState : SearchState := { nTrials := 0, nNoImprove := 0, best := none }

/-- Modelled from the spec: a trial improves on the best outcome so far
when it is a valid labeling with a strictly better quality score. -/
def improves (best : Option TrialOutcome) (t : TrialOutcome) : Bool :=
  validLabeling t.labels &&
    (match best with
     | none => true
     | some b => decide (b.score < t.score))

/-- Modelled from the spec: one TRIAL step of the search loop: propose
parameters, run clustering, score quality; an improving trial resets the
patience counter, any other trial (including failed trials, recorded as
non-improving) increments it. -/
def stepTrial (runTrial : Nat → TrialOutcome) (st : SearchState) : SearchState :=
  let t := runTrial st.nTrials
  if improves st.best t then
    { nTrials := st.nTrials + 1, nNoImprove := 0, best := some t }
  else
    { nTrials := st.nTrials + 1, nNoImprove := st.nNoImprove + 1, best := st.best }

/-- Modelled from the spec: the search loop of the AutoMixingClusterer.
The fuel argument is the number of trials still allowed by `max_trials`.
CONVERGED when `n_patience` consecutive trials brought no improvement;
EXHAUSTED when the trial budget runs out first. -/
def runSearch (runTrial : Nat → TrialOutcome) (n_patience : Nat) :
    Nat → SearchState → SearchState × Terminal
  | 0, st => (st, Terminal.EXHAUSTED)
  | r + 1, st =>
    if n_patience ≤ st.nNoImprove then (st, Terminal.CONVERGED)
    else runSearch runTrial n_patience r (stepTrial runTrial st)

/-- Error taxonomy of the pipeline (spec section 7). -/
inductive PipelineError where
  | ClusteringFailed
  | ShapeMismatch
  | EmptyResult
deriving DecidableEq

/-- Result of a successful AutoMixingClusterer search. -/
structure SearchResult where
  labels : List Int
  score : Int
  terminal : Terminal

/-- Modelled from the spec: the full AutoMixingClusterer search.  It runs
the search loop with `max_trials` fuel and fails with `ClusteringFailed`
exactly when no trial produced a valid labeling; otherwise it returns the
best labeling found together with the terminal state reached. -/
def search (runTrial : Nat → TrialOutcome) (n_patience max_trials : Nat) :
    Except PipelineError SearchResult :=
  match runSearch runTrial n_patience max_trials initState with
  | (st, term) =>
    match st.best with
    | none => Except.error PipelineError.ClusteringFailed
    | some b => Except.ok { labels := b.labels, score := b.score, terminal := term }

/-- Modelled from the spec: the distinct cluster ids occurring in a
labeling; the key set of `labels_dict` and the column index of every
per-session boolean membership matrix. -/
def uniqueLabels (labels : List Int) : List Int := labels.dedup

/-- Modelled from the spec: `labels_dict`, mapping each cluster id
occurring in the labeling to the global ROI indices assigned to it. -/
def labels_dict (labels : List Int) : List (Int × List Nat) :=
  (uniqueLabels labels).map (fun u =>
    (u, (labels.enum.filter (fun p => decide (p.2 = u))).map (fun p => p.1)))

/-- A boolean matrix with an explicit shape, as for a numpy array. -/
structure BoolMat where
  nrows : Nat
  ncols : Nat
  entry : Nat → Nat → Bool

/-- Split a concatenated per-ROI list back into sessions, given the
per-session ROI counts. -/
def splitSessions : List Nat → List Int → List (List Int)
  | [], _ => []
  | n :: ns, l => l.take n :: splitSessions ns (l.drop n)

/-- Modelled from the spec: `labels_bool_bySession`, one boolean membership
matrix per session: rows are the ROIs of that session, one column per
cluster. -/
def labels_bool_bySession (n_roi : List Nat) (labels : List Int) : List BoolMat :=
  (splitSessions n_roi labels).map (fun ses =>
    { nrows := ses.length
      ncols := (uniqueLabels labels).length
      entry := fun r c =>
        match ses.get? r, (uniqueLabels labels).get? c with
        | some l, some u => decide (l = u)
        | _, _ => false })

/-- Modelled from the spec: the mean conjunctive similarity over ordered
pairs of distinct members of one cluster (0 for a singleton cluster). -/
def intraMean (sConj : SimMat) (members : List Nat) : ℚ :=
  let pairs := (members.product members).filter (fun p => decide (p.1 ≠ p.2))
  (pairs.map (fun p => sConj p.1 p.2)).sum / (pairs.length : ℚ)

/-- Modelled from the spec: the quality metric `cluster_intra_means`, one
entry per cluster of `labels_dict`. -/
def cluster_intra_means (sConj : SimMat) (labels : List Int) : List (Int × ℚ) :=
  (labels_dict labels).map (fun cl => (cl.1, intraMean sConj cl.2))

/-- Modelled from the spec: one detected region in one session, with its
spatial footprint over the FOV pixels, an optional embedding vector and an
optional wavelet descriptor. -/
structure ROI where
  footprint : List ℚ
  embedding : Option (List ℚ)
  swt : Option (List ℚ)

/-- Modelled from the spec: the SparseSimilarityBuilder for one modality:
entries are computed only for ROI pairs passing the candidate mask
(sparsity by construction). -/
def buildSimMat (simFn : ROI → ROI → ℚ) (rois : List ROI) (cand : Nat → Nat → Bool) : SimMat :=
  fun i j =>
    match rois.get? i, rois.get? j with
    | some a, some b => if cand i j then simFn a b else 0
    | _, _ => 0

/-- Consumer-facing results of the tracking pipeline: cluster labelings in
their several representations, ROI metadata, input data and quality
metrics. -/
structure Results where
  labels : List Int
  labels_dict : List (Int × List Nat)
  labels_bool_bySession : List BoolMat
  rois : List ROI
  input_data : List (List ROI)
  cluster_intra_means : List (Int × ℚ)

/-- Intermediate matrices exposed for diagnostics and regression testing. -/
structure RunData where
  sConj : SimMat
  dConj : SimMat
  graph_pruned : SimMat
  dConj_pruned : SimMat
  labels : List Int

/-- Modelled from the spec: the recognized configuration options used by
the tracking pipeline. -/
structure TrackingParams where
  n_patience : Nat
  max_trials : Nat
  prune_threshold : ℚ

/-- Modelled from the spec: `PipelineOrchestrator.pipeline_tracking`
sequences similarity building, session masking, fusion, pruning and the
automatic-mixing search, assembles `results` and `run_data`, and validates
that clusters, ROIs, input data and quality metrics are all non-empty in
the final result.  The per-modality similarity kernels and the clustering
trial runner are the external collaborators named by the spec. -/
def pipeline_tracking (params : TrackingParams)
    (sessions : List (List ROI))
    (modalities : List (ℚ × (ROI → ROI → ℚ)))
    (runTrial : Nat → TrialOutcome) :
    Except PipelineError (Results × RunData) :=
  let n_roi := sessions.map List.length
  let rois := sessions.flatten
  let cand := s_sesh n_roi
  let mats := modalities.map (fun m => (m.1, maskMat cand (buildSimMat m.2 rois cand)))
  let sConj := fuse mats
  let dConj := dConjOf sConj
  let keep := fun i j => decide (params.prune_threshold ≤ sConj i j)
  let graph_pruned := pruneMat keep sConj
  let dConj_pruned := pruneMat keep dConj
  match search runTrial params.n_patience params.max_trials with
  | Except.error e => Except.error e
  | Except.ok res =>
    let r : Results := {
      labels := res.labels
      labels_dict := labels_dict res.labels
      labels_bool_bySession := labels_bool_bySession n_roi res.labels
      rois := rois
      input_data := sessions
      cluster_intra_means := cluster_intra_means graph_pruned res.labels }
    let rd : RunData := {
      sConj := sConj
      dConj := dConj
      graph_pruned := graph_pruned
      dConj_pruned := dConj_pruned
      labels := res.labels }
    if r.labels_dict.length = 0 ∨ r.rois.length = 0 ∨ r.input_data.length = 0 ∨
        r.cluster_intra_means.length = 0 then
      Except.error PipelineError.EmptyResult
    else
      Except.ok (r, rd)

/-! ## Visualization helpers, embedded from `roicat/visualization.py` -/

/-- numpy cumulative sum of a list of counts. -/
def cumsum : List Nat → List Nat
  | [] => []
  | n :: ns => n :: (cumsum ns).map (fun m => n + m)

/-- Embeds visualization.py line 185:
`n_roi_cumsum = np.concatenate([[0], np.cumsum(n_roi)])`. -/
def n_roi_cumsum (n_roi : List Nat) : List Nat := 0 :: cumsum n_roi

/-- The two accepted input forms for the `labels` and `alphas_sf` arguments
of `compute_colored_FOV`: a single concatenated array over all ROIs, or a
list of per-session arrays. -/
inductive ArrayListInput (α : Type) where
  | concatenated (v : List α)
  | perSession (v : List (List α))

/-- Embeds `_fix_list_of_arrays` (visualization.py lines 188-192): a single
concatenated array is cut at the cumulative session boundaries (the slice
`v[b_l:b_u]` for the consecutive pairs `(b_l, b_u)` of `n_roi_cumsum`); a
list of per-session arrays is returned unchanged. -/
def fix_list_of_arrays {α : Type} (n_roi : List Nat) : ArrayListInput α → List (List α)
  | ArrayListInput.concatenated v =>
    let cs := n_roi_cumsum n_roi
    (cs.zip cs.tail).map (fun p => (v.drop p.1).take (p.2 - p.1))
  | ArrayListInput.perSession v => v

/-- numpy unique: the sorted distinct values of an integer array. -/
def npUnique (l : List Int) : List Int := l.dedup.insertionSort (fun a b => a ≤ b)

/-- np.clip(x, 0, 1). -/
def clip01 (x : ℚ) : ℚ := min (max x 0) 1

/-- Embeds the row normalization `rois.multiply(1.0/rois.max(1).A)` of
visualization.py line 216 (also used for the color table on line 220):
every row is divided by its maximum. -/
def rowNormalize (row : List ℚ) : List ℚ :=
  let m := row.foldl max 0
  row.map (fun x => x / m)

/-- Embeds `helpers.squeeze_integers` followed by the subtraction of the
minimum (visualization.py lines 227-228): each label goes to its rank in
the sorted distinct labels. -/
def squeezeToRank (labels_cat : List Int) : List Nat :=
  labels_cat.map (fun l => (npUnique labels_cat).indexOf l)

/-- Embeds visualization.py lines 218-225: the color table for `n_c`
classes, each row normalized by its maximum; a single class gets one
transparent black row; the first color is overwritten with transparent
black when label `-1` occurs. -/
def colorTable (cmap : Nat → List (List ℚ)) (labels_cat : List Int) : List (List ℚ) :=
  let n_c := (npUnique labels_cat).length
  let colors := if 1 < n_c then (cmap n_c).map (fun row => rowNormalize row) else [[0, 0, 0, 0]]
  if labels_cat.contains (-1) then colors.set 0 [0, 0, 0, 0] else colors

/-- Embeds the body of `compute_colored_FOV` after input normalization
(visualization.py lines 197-243).  Footprints are row-normalized, colored
by the class color of the squeezed label, clipped at 1, scaled by the label
and footprint alphas, and composed per session by a pixelwise maximum; the
result holds, per session, the three RGB channels of each FOV pixel in
row-major order. -/
def colored_FOV_core (spatialFootprints : List (List (List ℚ)))
    (FOV_height FOV_width : Nat) (labels : List (List Int))
    (cmap : Nat → List (List ℚ)) (alphas_labels : Option (List ℚ))
    (alphas_sf : Option (List (List ℚ))) : List (List (List ℚ)) :=
  let labels_cat := labels.flatten
  let n_c := (npUnique labels_cat).length
  let aLab := (alphas_labels.getD (List.replicate n_c 1)).map clip01
  let aSf := ((alphas_sf.map List.flatten).getD (List.replicate labels_cat.length 1)).map clip01
  let rois := (spatialFootprints.map (fun sf => sf.map rowNormalize)).flatten
  let colors := colorTable cmap labels_cat
  let sq := squeezeToRank labels_cat
  let roiVal := fun (r : Nat) (c : Nat) (p : Nat) =>
    let base := (rois.get? r).getD []
    let col := (colors.get? ((sq.get? r).getD 0)).getD []
    min ((base.get? p).getD 0 * (col.get? c).getD 0) 1 *
      ((aLab.get? ((sq.get? r).getD 0)).getD 1 * (aSf.get? r).getD 1)
  let n_roi := spatialFootprints.map List.length
  let bounds := n_roi_cumsum n_roi
  (List.range n_roi.length).map (fun s =>
    let lo := (bounds.get? s).getD 0
    let hi := (bounds.get? (s + 1)).getD 0
    (List.range (FOV_height * FOV_width)).map (fun p =>
      (List.range 3).map (fun c =>
        ((List.range (hi - lo)).map (fun k => roiVal (lo + k) c p)).foldl max 0)))

/-- Embeds `compute_colored_FOV` (visualization.py lines 141-243): both the
`labels` and the `alphas_sf` inputs are first normalized with
`_fix_list_of_arrays` at the cumulative per-session ROI boundaries, and the
colored FOV composites are then computed from the normalized values. -/
def compute_colored_FOV (spatialFootprints : List (List (List ℚ)))
    (FOV_height FOV_width : Nat) (labels : ArrayListInput Int)
    (cmap : Nat → List (List ℚ)) (alphas_labels : Option (List ℚ))
    (alphas_sf : Option (ArrayListInput ℚ)) : List (List (List ℚ)) :=
  let n_roi := spatialFootprints.map List.length
  colored_FOV_core spatialFootprints FOV_height FOV_width
    (fix_list_of_arrays n_roi labels) cmap alphas_labels
    (alphas_sf.map (fun a => fix_list_of_arrays n_roi a))

/-- A numpy 3-d float array (a stack of 2-d images) with explicit shape. -/
structure Arr3 where
  n0 : Nat
  n1 : Nat
  n2 : Nat
  val : Nat → Nat → Nat → ℚ

/-- A store of numpy arrays; an address is an index into the store.  Basic
slicing in numpy yields views, so an in-place write through a view acts on
the stored array at the base address. -/
structure Heap where
  arrays : List Arr3

/-- Read the array stored at address `a` (a zero-shape array when the
address is unused). -/
def Heap.read (h : Heap) (a : Nat) : Arr3 :=
  (h.arrays.get? a).getD { n0 := 0, n1 := 0, n2 := 0, val := fun _ _ _ => 0 }

/-- Allocate a fresh array (the effect of `copy.deepcopy`), returning the
new store and the fresh address. -/
def Heap.alloc (h : Heap) (v : Arr3) : Heap × Nat :=
  ({ arrays := h.arrays ++ [v] }, h.arrays.length)

/-- Overwrite the array stored at address `a`. -/
def Heap.write (h : Heap) (a : Nat) (v : Arr3) : Heap :=
  { arrays := h.arrays.set a v }

/-- `np.max(ims, axis=0)`: the pixelwise maximum over the image stack. -/
def maxAxis0Val (A : Arr3) (i j : Nat) : ℚ :=
  (((List.range A.n0).map (fun k => A.val k i j)).max?).getD 0

/-- The row indices holding a positive pixel of the stackwise maximum
(`np.where(ims_max > 0)[0]` as a sorted set). -/
def nonzeroRows (A : Arr3) : List Nat :=
  (List.range A.n1).filter (fun i =>
    (List.range A.n2).any (fun j => decide (0 < maxAxis0Val A i j)))

/-- The column indices holding a positive pixel of the stackwise maximum
(`np.where(ims_max > 0)[1]` as a sorted set). -/
def nonzeroCols (A : Arr3) : List Nat :=
  (List.range A.n2).filter (fun j =>
    (List.range A.n1).any (fun i => decide (0 < maxAxis0Val A i j)))

/-- The in-place border assignment `im_out[:,(0,-1),:] = 1` and
`im_out[:,:,(0,-1)] = 1` performed through the crop view: inside the
cropped block, the border rows and columns become 1; every other entry
keeps its value. -/
def borderAssign (A : Arr3) (rowLo rowHi colLo colHi : Nat) : Arr3 :=
  { n0 := A.n0, n1 := A.n1, n2 := A.n2
    val := fun k i j =>
      if (rowLo ≤ i ∧ i < rowHi ∧ colLo ≤ j ∧ j < colHi) ∧
          (i = rowLo ∨ i = rowHi - 1 ∨ j = colLo ∨ j = colHi - 1) then 1
      else A.val k i j }

/-- The crop view `ims_copy[:, rowLo:rowHi, colLo:colHi]`. -/
def cropView (A : Arr3) (rowLo rowHi colLo colHi : Nat) : Arr3 :=
  { n0 := A.n0, n1 := rowHi - rowLo, n2 := colHi - colLo
    val := fun k i j => A.val k (rowLo + i) (colLo + j) }

/-- Embeds `crop_cluster_ims` (visualization.py lines 246-271), with the
numpy mutation made explicit through the store: read `ims`, find the
bounding box of the positive pixels of the stackwise maximum, deep-copy
`ims` to a fresh address, write the borders of the cropped block to 1 in
place through the crop view of the copy, and return the view.  Returns
`none` where numpy raises (an empty stack, or no positive pixel). -/
def crop_cluster_ims (h : Heap) (a : Nat) : Option (Heap × Arr3) :=
  let ims := h.read a
  if ims.n0 = 0 then none
  else
    match (nonzeroRows ims).max?, (nonzeroRows ims).min?,
        (nonzeroCols ims).min?, (nonzeroCols ims).max? with
    | some z_top, some z_bottom, some z_left, some z_right =>
      let rowLo := z_bottom - 1
      let rowHi := min (z_top + 1) ims.n1
      let colLo := z_left - 1
      let colHi := min (z_right + 1) ims.n2
      match h.alloc ims with
      | (h1, a2) =>
        let mutated := borderAssign ims rowLo rowHi colLo colHi
        some (h1.write a2 mutated, cropView mutated rowLo rowHi colLo colHi)
    | _, _, _, _ => none

/-! ## Concrete instances used by the witnesses -/

/-- A prune policy keeping every edge. -/
def keepW : Nat → Nat → Bool := fun _ _ => true

/-- A similarity matrix with every entry explicit. -/
def matW : SimMat := fun _ _ => 1

/-- A trial runner that always returns a valid two-ROI labeling. -/
def rtW : Nat → TrialOutcome := fun _ => { labels := [0, 0], score := 1 }

/-- A trial runner whose every trial produces only empty clusters. -/
def rtNoiseW : Nat → TrialOutcome := fun _ => { labels := [-1, -1], score := 0 }

/-- Two sessions with two and one ROIs. -/
def n_roiW : List Nat := [2, 1]

/-- A labeling of the three ROIs of `n_roiW`. -/
def labelsW : List Int := [0, 0, -1]

/-- A default boolean matrix. -/
def boolMatDefault : BoolMat := { nrows := 0, ncols := 0, entry := fun _ _ => false }

/-- The first-session membership matrix of `labelsW`. -/
def MW : BoolMat := (labels_bool_bySession n_roiW labelsW).headD boolMatDefault

/-- A one-pixel ROI. -/
def roiW : ROI := { footprint := [1], embedding := none, swt := none }

/-- Two sessions of one ROI each. -/
def sessionsW : List (List ROI) := [[roiW], [roiW]]

/-- A small trial and patience budget with a zero prune threshold. -/
def paramsW : TrackingParams := { n_patience := 1, max_trials := 1, prune_threshold := 0 }

/-- One modality of weight one whose kernel is constant. -/
def modalitiesW : List (ℚ × (ROI → ROI → ℚ)) := [(1, fun _ _ => 1)]

/-- The output of the pipeline on the small concrete input. -/
def pipelineOutW : Results × RunData :=
  (pipeline_tracking paramsW sessionsW modalitiesW rtW).toOption.getD
    ({ labels := [], labels_dict := [], labels_bool_bySession := [], rois := [],
       input_data := [], cluster_intra_means := [] },
     { sConj := matW, dConj := matW, graph_pruned := matW, dConj_pruned := matW, labels := [] })

/-- Two sessions of spatial footprints over a 2-pixel FOV. -/
def sfW : List (List (List ℚ)) := [[[1, 0], [0, 1]], [[1, 1]]]

/-- Per-session labels matching `sfW`. -/
def lsW : List (List Int) := [[0, 1], [0]]

/-- Per-session footprint alphas matching `sfW`. -/
def asW : List (List ℚ) := [[1, 1], [1]]

/-- A constant colormap table. -/
def cmapW : Nat → List (List ℚ) := fun n => List.replicate n [1, 1, 1, 1]

/-- A 3x3 single-image stack with one positive center pixel. -/
def imsW : Arr3 :=
  { n0 := 1, n1 := 3, n2 := 3, val := fun _ i j => if i = 1 ∧ j = 1 then 1 else 0 }

/-- A store holding `imsW` at address 0. -/
def heapW : Heap := { arrays := [imsW] }

/-- The store and view returned by `crop_cluster_ims` on `heapW`. -/
def cropOutW : Heap × Arr3 := (crop_cluster_ims heapW 0).getD (heapW, imsW)

/-! ## Theorems -/

/-- C2: the nonzero support of every matrix pruned by the GraphPruner is a
subset of the nonzero support of its unpruned counterpart: pruning
introduces no new edges, for every modality matrix and for sConj and
dConj. -/
theorem pruned_support_subset (keep : Nat → Nat → Bool) (m : SimMat) (i j : Nat)
    (h : inSupport (pruneMat keep m) i j) : inSupport m i j := by
  unfold inSupport pruneMat at h
  by_cases hk : keep i j
  · simpa [hk] using h
  · simp [hk] at h

/-- C2 witness: the theorem applied to a concrete pruned matrix entry. -/
theorem pruned_support_subset_witness :
    inSupport (pruneMat keepW matW) 0 0 ∧ inSupport matW 0 0 := by
  have hp : inSupport (pruneMat keepW matW) 0 0 := by
    simp [inSupport, pruneMat, keepW, matW]
  exact ⟨hp, pruned_support_subset keepW matW 0 0 hp⟩

/-- C3: in every session-constraint mask `s_sesh` the diagonal entry
`(i, i)` is ineligible, and entry `(i, j)` is true exactly when ROI `i`
and ROI `j` come from different sessions (the default policy). -/
theorem s_sesh_diagonal_and_policy (n_roi : List Nat) (i j : Nat) :
    s_sesh n_roi i i = false ∧
      (s_sesh n_roi i j = true ↔ sessionOfROI n_roi i ≠ sessionOfROI n_roi j) := by
  constructor
  · simp [s_sesh]
  · simp [s_sesh]

/-- C3 witness: the theorem applied at a concrete mask. -/
theorem s_sesh_diagonal_and_policy_witness :
    s_sesh n_roiW 0 0 = false ∧
      (s_sesh n_roiW 0 2 = true ↔ sessionOfROI n_roiW 0 ≠ sessionOfROI n_roiW 2) :=
  s_sesh_diagonal_and_policy n_roiW 0 2

/-- If no trial ever produces a valid labeling, the search loop never
acquires a best outcome. -/
theorem runSearch_best_none (rt : Nat → TrialOutcome) (np : Nat)
    (hv : ∀ i, validLabeling (rt i).labels = false) :
    ∀ (r : Nat) (st : SearchState), st.best = none →
      ((runSearch rt np r st).1).best = none := by
  intro r
  induction r with
  | zero => intro st hb; simpa [runSearch] using hb
  | succ n ih =>
    intro st hb
    rw [runSearch]
    by_cases hp : np ≤ st.nNoImprove
    · rw [if_pos hp]; simpa using hb
    · rw [if_neg hp]
      apply ih
      simp [stepTrial, improves, hv, hb]

/-- C4: the AutoMixingClusterer search fails with ClusteringFailed exactly
when no trial produces a valid labeling: with `max_trials = 0`, and
whenever every trial produces only empty clusters. -/
theorem search_fails_without_valid_labeling (runTrial : Nat → TrialOutcome)
    (n_patience max_trials : Nat) :
    search runTrial n_patience 0 = Except.error PipelineError.ClusteringFailed ∧
      ((∀ i, validLabeling (runTrial i).labels = false) →
        search runTrial n_patience max_trials = Except.error PipelineError.ClusteringFailed) := by
  refine ⟨rfl, fun hv => ?_⟩
  unfold search
  rcases hr : runSearch runTrial n_patience max_trials initState with ⟨st, term⟩
  have hb : st.best = none := by
    have hn := runSearch_best_none runTrial n_patience hv max_trials initState rfl
    rw [hr] at hn
    exact hn
  simp [hb]

/-- C4 witness: the theorem applied to an all-noise trial runner. -/
theorem search_fails_without_valid_labeling_witness :
    search rtNoiseW 3 0 = Except.error PipelineError.ClusteringFailed ∧
      search rtNoiseW 3 2 = Except.error PipelineError.ClusteringFailed :=
  ⟨(search_fails_without_valid_labeling rtNoiseW 3 2).1,
   (search_fails_without_valid_labeling rtNoiseW 3 2).2 (fun _ => rfl)⟩

/-- One trial step increments the patience counter by at most one. -/
theorem stepTrial_nNoImprove_le (rt : Nat → TrialOutcome) (st : SearchState) :
    (stepTrial rt st).nNoImprove ≤ st.nNoImprove + 1 := by
  unfold stepTrial
  by_cases hi : improves st.best (rt st.nTrials)
  · simp [hi]
  · simp [hi]

/-- While the patience counter plus the remaining fuel stays below
`n_patience`, the search loop can only end EXHAUSTED. -/
theorem runSearch_exhausts (rt : Nat → TrialOutcome) (np : Nat) :
    ∀ (r : Nat) (st : SearchState), st.nNoImprove + r < np →
      (runSearch rt np r st).2 = Terminal.EXHAUSTED := by
  intro r
  induction r with
  | zero => intro st _; rfl
  | succ n ih =>
    intro st hlt
    rw [runSearch]
    rw [if_neg (by omega)]
    apply ih
    have hs := stepTrial_nNoImprove_le rt st
    omega

/-- C5: with `n_patience` strictly larger than `max_trials`, the search
loop never reaches CONVERGED and always terminates EXHAUSTED. -/
theorem patience_exceeding_budget_exhausts (runTrial : Nat → TrialOutcome)
    (n_patience max_trials : Nat) (h : max_trials < n_patience) :
    (runSearch runTrial n_patience max_trials initState).2 = Terminal.EXHAUSTED ∧
      (runSearch runTrial n_patience max_trials initState).2 ≠ Terminal.CONVERGED := by
  have he := runSearch_exhausts runTrial n_patience max_trials initState
    (by simp only [initState]; omega)
  refine ⟨he, ?_⟩
  rw [he]
  simp

/-- C5 witness: the theorem applied at a concrete budget. -/
theorem patience_exceeding_budget_exhausts_witness :
    2 < 3 ∧ ((runSearch rtW 3 2 initState).2 = Terminal.EXHAUSTED ∧
      (runSearch rtW 3 2 initState).2 ≠ Terminal.CONVERGED) :=
  ⟨by decide, patience_exceeding_budget_exhausts rtW 3 2 (by decide)⟩

/-- C6: the number of clusters is consistent across representations: the
length of `labels_dict` equals the column count of the first session
membership matrix of `labels_bool_bySession`. -/
theorem cluster_count_consistent (n_roi : List Nat) (labels : List Int) (M : BoolMat)
    (h : (labels_bool_bySession n_roi labels).head? = some M) :
    (labels_dict labels).length = M.ncols := by
  rcases n_roi with _ | ⟨n, ns⟩
  · simp [labels_bool_bySession, splitSessions] at h
  · simp only [labels_bool_bySession, splitSessions, List.map_cons, List.head?_cons,
      Option.some.injEq] at h
    rw [← h]
    simp [labels_dict]

/-- C6 witness: the theorem applied to a concrete labeling. -/
theorem cluster_count_consistent_witness :
    (labels_bool_bySession n_roiW labelsW).head? = some MW ∧
      (labels_dict labelsW).length = MW.ncols :=
  ⟨rfl, cluster_count_consistent n_roiW labelsW MW rfl⟩

/-- C7: the quality metric `cluster_intra_means` has exactly one entry per
cluster of `labels_dict`. -/
theorem cluster_intra_means_one_per_cluster (sConj : SimMat) (labels : List Int) :
    (cluster_intra_means sConj labels).length = (labels_dict labels).length := by
  unfold cluster_intra_means
  rw [List.length_map]

/-- C8: every successful end-to-end pipeline run has validated non-empty
clusters, ROIs, input data and quality metrics in the final result. -/
theorem pipeline_ok_results_nonempty (params : TrackingParams) (sessions : List (List ROI))
    (modalities : List (ℚ × (ROI → ROI → ℚ))) (runTrial : Nat → TrialOutcome)
    (out : Results × RunData)
    (h : pipeline_tracking params sessions modalities runTrial = Except.ok out) :
    0 < out.1.labels_dict.length ∧ 0 < out.1.rois.length ∧
      0 < out.1.input_data.length ∧ 0 < out.1.cluster_intra_means.length := by
  simp only [pipeline_tracking] at h
  split at h
  · exact absurd h (by simp)
  · split at h
    · exact absurd h (by simp)
    · rename_i hcond
      push_neg at hcond
      simp only [Except.ok.injEq] at h
      subst h
      exact ⟨Nat.pos_of_ne_zero hcond.1, Nat.pos_of_ne_zero hcond.2.1,
        Nat.pos_of_ne_zero hcond.2.2.1, Nat.pos_of_ne_zero hcond.2.2.2⟩

/-- Shifting every cumulative boundary by a constant is the same as
prepending that constant to the head of the boundary list. -/
theorem zip_cumsum_shift (a : Nat) (cs : List Nat) :
    (a :: cs.map (fun m => a + m)).zip (cs.map (fun m => a + m)) =
      ((0 :: cs).zip cs).map (Prod.map (fun m => a + m) (fun m => a + m)) := by
  have h0 : a :: cs.map (fun m => a + m) = (0 :: cs).map (fun m => a + m) := by simp
  rw [h0]
  exact List.zip_map (fun m => a + m) (fun m => a + m) (0 :: cs) cs

/-- Slicing a concatenation at boundaries shifted by the length of the
first block is slicing the remainder at the unshifted boundaries. -/
theorem slice_map_shift {α : Type} (pre rest : List α) (ps : List (Nat × Nat)) :
    (ps.map (Prod.map (fun m => pre.length + m) (fun m => pre.length + m))).map
        (fun p => ((pre ++ rest).drop p.1).take (p.2 - p.1)) =
      ps.map (fun p => (rest.drop p.1).take (p.2 - p.1)) := by
  rw [List.map_map]
  apply List.map_congr_left
  rintro ⟨x, y⟩ -
  simp only [Function.comp_apply, Prod.map_apply]
  rw [List.drop_append]
  congr 1
  omega

/-- Cutting the concatenation of a list of blocks at the cumulative block
boundaries recovers the blocks. -/
theorem fix_concat_flatten {α : Type} (ls : List (List α)) :
    fix_list_of_arrays (ls.map List.length) (ArrayListInput.concatenated ls.flatten) = ls := by
  induction ls with
  | nil => rfl
  | cons l ls ih =>
    simp only [fix_list_of_arrays, n_roi_cumsum, List.tail_cons] at ih ⊢
    simp only [List.map_cons, cumsum, List.flatten_cons, List.zip_cons_cons, List.map_cons,
      List.drop_zero, Nat.sub_zero]
    rw [List.take_left]
    rw [zip_cumsum_shift, slice_map_shift]
    rw [ih]

/-- C9: `compute_colored_FOV` returns the same output whether the labels
and footprint alphas are passed as one concatenated array over all ROIs or
as a list of per-session arrays whose lengths match the per-session ROI
counts: both forms are normalized by `_fix_list_of_arrays` at the
cumulative ROI boundaries before any further computation. -/
theorem compute_colored_FOV_input_form_invariant
    (spatialFootprints : List (List (List ℚ))) (FOV_height FOV_width : Nat)
    (ls : List (List Int)) (cmap : Nat → List (List ℚ)) (alphas_labels : Option (List ℚ))
    (alphas : List (List ℚ))
    (hl : ls.map List.length = spatialFootprints.map List.length)
    (ha : alphas.map List.length = spatialFootprints.map List.length) :
    compute_colored_FOV spatialFootprints FOV_height FOV_width
        (ArrayListInput.concatenated ls.flatten) cmap alphas_labels
        (some (ArrayListInput.concatenated alphas.flatten)) =
      compute_colored_FOV spatialFootprints FOV_height FOV_width
        (ArrayListInput.perSession ls) cmap alphas_labels
        (some (ArrayListInput.perSession alphas)) := by
  have h1 : fix_list_of_arrays (spatialFootprints.map List.length)
      (ArrayListInput.concatenated ls.flatten) = ls := by
    rw [← hl]; exact fix_concat_flatten ls
  have h2 : fix_list_of_arrays (spatialFootprints.map List.length)
      (ArrayListInput.concatenated alphas.flatten) = alphas := by
    rw [← ha]; exact fix_concat_flatten alphas
  simp only [compute_colored_FOV, Option.map_some']
  rw [h1, h2]
  rfl

/-- C9 witness: the theorem applied to a concrete two-session input. -/
theorem compute_colored_FOV_input_form_invariant_witness :
    lsW.map List.length = sfW.map List.length ∧
      asW.map List.length = sfW.map List.length ∧
      compute_colored_FOV sfW 1 2 (ArrayListInput.concatenated lsW.flatten) cmapW none
          (some (ArrayListInput.concatenated asW.flatten)) =
        compute_colored_FOV sfW 1 2 (ArrayListInput.perSession lsW) cmapW none
          (some (ArrayListInput.perSession asW)) :=
  ⟨by decide, by decide,
   compute_colored_FOV_input_form_invariant sfW 1 2 lsW cmapW none asW (by decide) (by decide)⟩

/-- C10: `crop_cluster_ims` never modifies its input array: it deep-copies
the stack and writes the crop borders through a view of the copy, so the
array at the input address (and every other previously stored array) holds
the same values after the call, while the returned cropped images have
their border rows and columns overwritten with 1. -/
theorem crop_cluster_ims_preserves_input (h : Heap) (a : Nat) (h2 : Heap) (out : Arr3)
    (hc : crop_cluster_ims h a = some (h2, out)) :
    Heap.read h2 a = Heap.read h a ∧
      (∀ b, b < h.arrays.length → Heap.read h2 b = Heap.read h b) ∧
      (∀ k i j, k < out.n0 → i < out.n1 → j < out.n2 →
        (i = 0 ∨ i = out.n1 - 1 ∨ j = 0 ∨ j = out.n2 - 1) → out.val k i j = 1) := by
  simp only [crop_cluster_ims, Heap.alloc] at hc
  split at hc
  · exact absurd hc (by simp)
  · rename_i hn0
    split at hc
    case _ z_top z_bottom z_left z_right htop hbot hleft hright =>
      simp only [Option.some.injEq, Prod.mk.injEq] at hc
      obtain ⟨hh2, hout⟩ := hc
      subst hh2
      subst hout
      have hlen : a < h.arrays.length := by
        by_contra hge
        apply hn0
        have hnone : h.arrays[a]? = none := List.getElem?_eq_none (by omega)
        simp [Heap.read, hnone]
      have hpres : ∀ (M : Arr3) (b : Nat), b < h.arrays.length →
          Heap.read (Heap.write { arrays := h.arrays ++ [h.read a] } h.arrays.length M) b =
            Heap.read h b := by
        intro M b hb
        simp only [Heap.read, Heap.write]
        rw [List.get?_set_ne _ _ (by omega)]
        rw [List.get?_append hb]
      refine ⟨hpres _ a hlen, fun b hb => hpres _ b hb, ?_⟩
      intro k i j _ hi hj hb
      simp only [cropView] at hi hj hb ⊢
      simp only [borderAssign]
      rw [if_pos]
      omega
    case _ => simp at hc

/-- C8 witness: the theorem applied to a concrete successful run. -/
theorem pipeline_ok_results_nonempty_witness :
    pipeline_tracking paramsW sessionsW modalitiesW rtW = Except.ok pipelineOutW ∧
      (0 < pipelineOutW.1.labels_dict.length ∧ 0 < pipelineOutW.1.rois.length ∧
       0 < pipelineOutW.1.input_data.length ∧ 0 < pipelineOutW.1.cluster_intra_means.length) :=
  ⟨rfl, pipeline_ok_results_nonempty paramsW sessionsW modalitiesW rtW pipelineOutW rfl⟩

/-- C10 witness: the theorem applied to a concrete store and stack. -/
theorem crop_cluster_ims_preserves_input_witness :
    crop_cluster_ims heapW 0 = some (cropOutW.1, cropOutW.2) ∧
      Heap.read cropOutW.1 0 = Heap.read heapW 0 :=
  ⟨rfl, (crop_cluster_ims_preserves_input heapW 0 cropOutW.1 cropOutW.2 rfl).1⟩

end ROICaT
